import Mathlib

/-!
Verification of the `salsa20` crate (`src/salsa20/src/lib.rs`) of the
stream-ciphers repository, against its natural-language specification.

Shallow embedding conventions:
* `u8` bytes and `u32` words are `Nat`s; wrapping arithmetic is explicit
  `% 2^32` (resp. `% 256`).
* The 16-word cipher state `[u32; STATE_WORDS]` is a `List Nat` of length 16,
  in the logical (non-x86, identity-layout) word order: on non-x86 targets the
  `cfg_if` permutation in `KeyIvInit::new` is not applied and the counter
  words are `state[8]`/`state[9]`.
* Fallible operations (`try_into().unwrap()`, which panics on a chunk whose
  length is not 4) are embedded in `Option`: `none` models the panic.
* `usize` is modelled as 64 bits wide (`usizeMax = 2^64 - 1`).
-/

namespace Salsa

/-- `const KEY_CONSTANTS_START: [u8; 7] = *b"expand ";` -/
def KEY_CONSTANTS_START : List Nat := [0x65, 0x78, 0x70, 0x61, 0x6e, 0x64, 0x20]

/-- `const KEY_CONSTANTS_END: [u8; 7] = *b"-byte k";` -/
def KEY_CONSTANTS_END : List Nat := [0x2d, 0x62, 0x79, 0x74, 0x65, 0x20, 0x6b]

/-- `u32::from_le_bytes([b0, b1, b2, b3])` on bytes given as `Nat`s. -/
def u32_from_le_bytes (b0 b1 b2 b3 : Nat) : Nat :=
  b0 + b1 * 2 ^ 8 + b2 * 2 ^ 16 + b3 * 2 ^ 24

/-- `pub const fn constants(key_len: usize) -> [u32; 4]`.
`key_len as u8` truncates to 8 bits (`% 256`); the result is then clamped
at 99 so its decimal form fits in the two ASCII digit slots. -/
def constants (key_len : Nat) : List Nat :=
  let key_len_byte := key_len % 256
  let key_len_byte := if key_len_byte > 99 then 99 else key_len_byte
  let ascii_first_digit := 0x30 + key_len_byte / 10
  let ascii_second_digit := 0x30 + key_len_byte % 10
  [ u32_from_le_bytes (KEY_CONSTANTS_START.getD 0 0) (KEY_CONSTANTS_START.getD 1 0)
      (KEY_CONSTANTS_START.getD 2 0) (KEY_CONSTANTS_START.getD 3 0),
    u32_from_le_bytes (KEY_CONSTANTS_START.getD 4 0) (KEY_CONSTANTS_START.getD 5 0)
      (KEY_CONSTANTS_START.getD 6 0) ascii_first_digit,
    u32_from_le_bytes ascii_second_digit (KEY_CONSTANTS_END.getD 0 0)
      (KEY_CONSTANTS_END.getD 1 0) (KEY_CONSTANTS_END.getD 2 0),
    u32_from_le_bytes (KEY_CONSTANTS_END.getD 3 0) (KEY_CONSTANTS_END.getD 4 0)
      (KEY_CONSTANTS_END.getD 5 0) (KEY_CONSTANTS_END.getD 6 0) ]

/-- Rust slice `chunks(4)`: splits a byte list into chunks of 4, the last
chunk possibly shorter. -/
def chunks4 : List Nat → List (List Nat)
  | [] => []
  | b0 :: b1 :: b2 :: b3 :: rest => [b0, b1, b2, b3] :: chunks4 rest
  | rest => [rest]

/-- `u32::from_le_bytes(chunk.try_into().unwrap())`: the `try_into` to
`[u8; 4]` succeeds only when the chunk has length exactly 4; `none`
models the panic of the `unwrap`. -/
def chunk_to_word : List Nat → Option Nat
  | [b0, b1, b2, b3] => some (u32_from_le_bytes b0 b1 b2 b3)
  | _ => none

/-- Convert every chunk to a word, failing (`none`, a panic) as soon as
one conversion fails — the effect of the conversion inside each loop. -/
def mapOpt (f : List Nat → Option Nat) : List (List Nat) → Option (List Nat)
  | [] => some []
  | c :: cs => do
      let w ← f c
      let ws ← mapOpt f cs
      pure (w :: ws)

/-- Write the words `ws` into consecutive positions of `s` starting at
index `start` — the embedding of `state[start + i] = w_i` performed by the
`for (i, chunk) in ...enumerate()` loops. -/
def writeSeq (s : List Nat) (start : Nat) (ws : List Nat) : List Nat :=
  match ws with
  | [] => s
  | w :: rest => writeSeq (s.set start w) (start + 1) rest

/-- `<SalsaCore<R, K> as KeyIvInit>::new(key, iv)` on the non-x86 path
(identity layout, the `cfg_if` permutation not applied).  `none` models a
panic of one of the `chunk.try_into().unwrap()` calls. -/
def newOpt (key iv : List Nat) : Option (List Nat) := do
  let s := List.replicate 16 0
  let cs := constants key.length
  let s := s.set 0 (cs.getD 0 0)
  let kw ← mapOpt chunk_to_word (chunks4 (key.take (min key.length 16)))
  let s := writeSeq s 1 kw
  let s := s.set 5 (cs.getD 1 0)
  let nw ← mapOpt chunk_to_word (chunks4 iv)
  let s := writeSeq s 6 nw
  let s := s.set 8 0
  let s := s.set 9 0
  let s := s.set 10 (cs.getD 2 0)
  let kw2 ← mapOpt chunk_to_word (chunks4 (key.drop (key.length - 16)))
  let s := writeSeq s 11 kw2
  pure (s.set 15 (cs.getD 3 0))

/-- Total version of `newOpt` for use when construction is known to
succeed (key length 16 or 32, nonce length 8). -/
def new (key iv : List Nat) : List Nat :=
  (newOpt key iv).getD []

/-- `StreamCipherSeekCore::get_block_pos` (non-x86 path):
`(state[8] as u64) + ((state[9] as u64) << 32)`. -/
def get_block_pos (s : List Nat) : Nat :=
  s.getD 8 0 + s.getD 9 0 * 2 ^ 32

/-- `StreamCipherSeekCore::set_block_pos` (non-x86 path):
`state[8] = (pos & 0xffff_ffff) as u32; state[9] = ((pos >> 32) & 0xffff_ffff) as u32`. -/
def set_block_pos (s : List Nat) (pos : Nat) : List Nat :=
  (s.set 8 (pos &&& 0xffffffff)).set 9 ((pos >>> 32) &&& 0xffffffff)

/-- `usize::MAX` on the modelled 64-bit target. -/
def usizeMax : Nat := 2 ^ 64 - 1

/-- `StreamCipherCore::remaining_blocks`:
`let rem = u64::MAX - self.get_block_pos(); rem.try_into().ok()`
(the `try_into` is `u64 -> usize`, which fails iff the value exceeds
`usize::MAX`). -/
def remaining_blocks (s : List Nat) : Option Nat :=
  let rem := (2 ^ 64 - 1) - get_block_pos s
  if rem ≤ usizeMax then some rem else none

/-! ### Round function and block production

The backend implementations (`mod backends`) are not part of the sources
under verification; the round function below is modelled from the spec.
-/

/-- Modelled from the spec: 32-bit left rotation `rotl(x, n)` used by the
quarter round (the backend sources are not in `src/`). Correct for
`x < 2^32` and `0 < n < 32`. -/
def rotl (x n : Nat) : Nat :=
  (x <<< n) % 2 ^ 32 ||| x >>> (32 - n)

/-- Modelled from the spec: the Salsa quarter round on state indices
`(ia, ib, ic, idx)`:
`b ^= rotl(a+d,7); c ^= rotl(b+a,9); d ^= rotl(c+b,13); a ^= rotl(d+c,18)`,
all additions 32-bit modular. -/
def quarterRound (ia ib ic idx : Nat) (s : List Nat) : List Nat :=
  let a := s.getD ia 0
  let b := s.getD ib 0
  let c := s.getD ic 0
  let d := s.getD idx 0
  let b := b ^^^ rotl ((a + d) % 2 ^ 32) 7
  let c := c ^^^ rotl ((b + a) % 2 ^ 32) 9
  let d := d ^^^ rotl ((c + b) % 2 ^ 32) 13
  let a := a ^^^ rotl ((d + c) % 2 ^ 32) 18
  (((s.set ia a).set ib b).set ic c).set idx d

/-- Modelled from the spec: one double round — quarter rounds on the four
columns, then on the four rows, with the fixed groupings of the published
Salsa20 specification. -/
def doubleRound (s : List Nat) : List Nat :=
  let s := quarterRound 0 4 8 12 s
  let s := quarterRound 5 9 13 1 s
  let s := quarterRound 10 14 2 6 s
  let s := quarterRound 15 3 7 11 s
  let s := quarterRound 0 1 2 3 s
  let s := quarterRound 5 6 7 4 s
  let s := quarterRound 10 11 8 9 s
  quarterRound 15 12 13 14 s

/-- `r` double rounds (`RoundCount / 2` of them; `r = 10` for Salsa20/20). -/
def doubleRounds : Nat → List Nat → List Nat
  | 0, s => s
  | n + 1, s => doubleRounds n (doubleRound s)

/-- Modelled from the spec: block production — apply the rounds to a copy
of the state, then add the pre-round words back elementwise mod `2^32`. -/
def salsaBlockWords (r : Nat) (s : List Nat) : List Nat :=
  List.zipWith (fun a b => (a + b) % 2 ^ 32) (doubleRounds r s) s

/-- The four little-endian bytes of a 32-bit word. -/
def le32_bytes (w : Nat) : List Nat :=
  [w % 256, w / 2 ^ 8 % 256, w / 2 ^ 16 % 256, w / 2 ^ 24 % 256]

/-- Serialize a word list to bytes, little-endian per word, words in order. -/
def serializeWords : List Nat → List Nat
  | [] => []
  | w :: ws => le32_bytes w ++ serializeWords ws

/-- The 64 keystream bytes of the block at the state's current position
(Salsa20/20 uses `r = 10` double rounds). -/
def keystreamBlock (r : Nat) (s : List Nat) : List Nat :=
  serializeWords (salsaBlockWords r s)

/-- XOR a keystream prefix into a buffer (`apply_keystream` on a buffer no
longer than one block). -/
def applyKeystream (ks buf : List Nat) : List Nat :=
  List.zipWith (fun p k => p ^^^ k) buf ks

/-- Modelled from the spec: the error of the length-validating construction
entry point (the trait-crate plumbing behind `new`/`new_from_slices` is not
under `src/`): key length not in \x7b16, 32\x7d, or nonce length not 8 for
the base variant, rejected with no partial state. -/
inductive ConstructionError where
  | invalidLength
deriving DecidableEq

/-- Modelled from the spec: length-checked construction of the base
variant, per §6/§7 of the spec — rejects any key whose length is not 16
or 32 and any nonce whose length is not 8. -/
def new_checked (key iv : List Nat) : Except ConstructionError (List Nat) :=
  if (key.length = 16 ∨ key.length = 32) ∧ iv.length = 8 then
    Except.ok (new key iv)
  else
    Except.error ConstructionError.invalidLength

/-- Modelled from the spec: the teardown routine — `Drop::drop` calls
`self.state.zeroize()`, and the `zeroize` crate (not under `src/`)
overwrites every element of `[u32; STATE_WORDS]` with zero. -/
def drop_zeroize (s : List Nat) : List Nat := s.map (fun _ => 0)

end Salsa

open Salsa

set_option maxRecDepth 100000 in
/-- C1: for the 20-round base variant with a 32-byte key of all `0x42`
bytes and an 8-byte nonce of all `0x24` bytes, XORing the first 16
keystream bytes into the plaintext `00010203 04050607 08090A0B 0C0D0E0F`
yields the ciphertext `85843cc5 d58cce7b 5dd3dd04 fa005ded`. -/
theorem salsa20_reference_vector :
    applyKeystream
      (keystreamBlock 10 (new (List.replicate 32 0x42) (List.replicate 8 0x24)))
      [0x00, 0x01, 0x02, 0x03, 0x04, 0x05, 0x06, 0x07,
       0x08, 0x09, 0x0a, 0x0b, 0x0c, 0x0d, 0x0e, 0x0f] =
    [0x85, 0x84, 0x3c, 0xc5, 0xd5, 0x8c, 0xce, 0x7b,
     0x5d, 0xd3, 0xdd, 0x04, 0xfa, 0x00, 0x5d, 0xed] := by decide

/-- C6 counterexample: the claim "for every key length value of at least
100, `constants` produces the same four words as for key length 99" fails
at key length 256: the code truncates `key_len as u8` before clamping, so
256 becomes byte 0 (digits "00"), not 99. -/
theorem constants_clamp_counterexample :
    100 ≤ 256 ∧ constants 256 ≠ constants 99 := by decide

/-- C6 (amended): for every key length value whose truncation to 8 bits
(`key_len as u8`, i.e. `key_len % 256`) is at least 100, `constants`
produces the same four words as for key length 99. -/
theorem constants_clamp_after_truncation :
    ∀ n : Nat, 100 ≤ n % 256 → constants n = constants 99 := by
  intro n h
  simp only [constants]
  rw [if_pos (by omega)]
  decide

/-- C6 (amended) witness at key length 100. -/
theorem constants_clamp_after_truncation_witness :
    100 ≤ 100 % 256 ∧ constants 100 = constants 99 :=
  ⟨by decide, constants_clamp_after_truncation 100 (by decide)⟩

/-- C7: for key lengths 16 and 32, the four constants serialized
little-endian and concatenated spell the 16 ASCII bytes
"expand 16-byte k" and "expand 32-byte k" respectively, and
`constants 16 ≠ constants 32`. -/
theorem constants_spell_expand_key :
    serializeWords (constants 16) = "expand 16-byte k".toList.map Char.toNat ∧
    serializeWords (constants 32) = "expand 32-byte k".toList.map Char.toNat ∧
    constants 16 ≠ constants 32 := by decide

/-- C3: seeking to `pos` and then reading the block position returns
exactly `pos`: `set_block_pos` stores the low and high 32-bit halves in
the two counter words and `get_block_pos` reconstructs `high<<32 | low`. -/
theorem set_then_get_block_pos :
    ∀ (s : List Nat) (pos : Nat), s.length = 16 → pos < 2 ^ 64 →
      get_block_pos (set_block_pos s pos) = pos := by
  intro s pos hlen hpos
  unfold get_block_pos set_block_pos
  rw [List.getD_eq_getElem?_getD, List.getD_eq_getElem?_getD]
  rw [List.getElem?_set_ne (by decide : (9 : Nat) ≠ 8)]
  rw [List.getElem?_set_eq_of_lt _ (by omega)]
  rw [List.getElem?_set_eq_of_lt _ (by simp [hlen])]
  have hmask : (0xffffffff : Nat) = 2 ^ 32 - 1 := by norm_num
  rw [hmask, Nat.and_pow_two_sub_one_eq_mod, Nat.and_pow_two_sub_one_eq_mod,
    Nat.shiftRight_eq_div_pow]
  simp only [Option.getD_some]
  have h32 : (2 : Nat) ^ 32 = 4294967296 := by norm_num
  have h64 : (2 : Nat) ^ 64 = 18446744073709551616 := by norm_num
  rw [h32] at *
  rw [h64] at hpos
  omega

/-- C3 witness: seek to `2^32 + 5` on the all-zero 16-word state and read
the position back. -/
theorem set_then_get_block_pos_witness :
    get_block_pos (set_block_pos (List.replicate 16 0) 4294967301) = 4294967301 :=
  set_then_get_block_pos (List.replicate 16 0) 4294967301 (by decide) (by norm_num)

/-- C4: on a state whose counter words are in `u32` range,
`remaining_blocks` returns `2^64 - 1 - get_block_pos`, and it returns 0
exactly when the block position is `2^64 - 1`. -/
theorem remaining_blocks_spec :
    ∀ s : List Nat, s.getD 8 0 < 2 ^ 32 → s.getD 9 0 < 2 ^ 32 →
      remaining_blocks s = some (2 ^ 64 - 1 - get_block_pos s) ∧
      (remaining_blocks s = some 0 ↔ get_block_pos s = 2 ^ 64 - 1) := by
  intro s h8 h9
  have h32 : (2 : Nat) ^ 32 = 4294967296 := by norm_num
  have h64 : (2 : Nat) ^ 64 = 18446744073709551616 := by norm_num
  have hpos : get_block_pos s < 2 ^ 64 := by
    unfold get_block_pos
    rw [h32] at h8 h9
    rw [h64]
    omega
  have hfits : 2 ^ 64 - 1 - get_block_pos s ≤ usizeMax := by
    unfold usizeMax
    omega
  constructor
  · unfold remaining_blocks
    rw [if_pos hfits]
  · unfold remaining_blocks
    rw [if_pos hfits]
    rw [Option.some_inj]
    omega

/-- C4 witness at the all-zero state (block position 0). -/
theorem remaining_blocks_spec_witness :
    remaining_blocks (List.replicate 16 0) =
      some (2 ^ 64 - 1 - get_block_pos (List.replicate 16 0)) ∧
    (remaining_blocks (List.replicate 16 0) = some 0 ↔
      get_block_pos (List.replicate 16 0) = 2 ^ 64 - 1) :=
  remaining_blocks_spec (List.replicate 16 0) (by norm_num) (by norm_num)

/-- C8: `set_block_pos` modifies only the two counter words (indices 8
and 9 of the logical layout); every other of the 16 words is unchanged. -/
theorem set_block_pos_frame :
    ∀ (s : List Nat) (pos i : Nat), i < 16 → i ≠ 8 → i ≠ 9 →
      (set_block_pos s pos).getD i 0 = s.getD i 0 := by
  intro s pos i _ h8 h9
  unfold set_block_pos
  rw [List.getD_eq_getElem?_getD, List.getD_eq_getElem?_getD]
  rw [List.getElem?_set_ne (by omega : (9 : Nat) ≠ i),
    List.getElem?_set_ne (by omega : (8 : Nat) ≠ i)]

/-- C8 witness: seeking on a concrete state leaves word 0 unchanged. -/
theorem set_block_pos_frame_witness :
    (set_block_pos (List.replicate 16 7) 123456789).getD 0 0 =
      (List.replicate 16 7).getD 0 0 :=
  set_block_pos_frame (List.replicate 16 7) 123456789 0 (by decide) (by decide)
    (by decide)

/-- C5: construction rejects (returns a `ConstructionError`, no partial
state) every key whose length is not 16 or 32 and every base-variant
nonce whose length is not 8. -/
theorem new_checked_rejects_invalid_lengths :
    ∀ key iv : List Nat,
      ¬(key.length = 16 ∨ key.length = 32) ∨ iv.length ≠ 8 →
      new_checked key iv = Except.error ConstructionError.invalidLength := by
  intro key iv h
  unfold new_checked
  rw [if_neg (by tauto)]

/-- C5 witness: a 17-byte key with a valid 8-byte nonce is rejected. -/
theorem new_checked_rejects_invalid_lengths_witness :
    new_checked (List.replicate 17 0) (List.replicate 8 0) =
      Except.error ConstructionError.invalidLength :=
  new_checked_rejects_invalid_lengths (List.replicate 17 0) (List.replicate 8 0)
    (by decide)

/-- C9: the teardown routine overwrites all 16 state words with zero. -/
theorem drop_zeroizes_state :
    ∀ s : List Nat, s.length = 16 → drop_zeroize s = List.replicate 16 0 := by
  intro s h
  unfold drop_zeroize
  rw [List.map_const']
  rw [h]

/-- C9 witness: tearing down a concrete nonzero state yields all zeros. -/
theorem drop_zeroizes_state_witness :
    drop_zeroize (List.replicate 16 42) = List.replicate 16 0 :=
  drop_zeroizes_state (List.replicate 16 42) (by decide)

set_option maxRecDepth 100000 in
set_option maxHeartbeats 2000000 in
/-- C2: construction produces the 16-word logical state
`w0 = constant0`, `w1..w4` = first 16 key bytes as 4 little-endian words,
`w5 = constant1`, `w6..w7` = the 8 nonce bytes as 2 little-endian words,
`w8 = w9 = 0` (block counter low and high: a fresh state is at block
position 0), `w10 = constant2`, `w11..w14` = last 16 key bytes as 4
little-endian words (for a 16-byte key the same 16 bytes as `w1..w4` are
reused), `w15 = constant3` — for every 32-byte key (first conjunct) and
every 16-byte key (second conjunct) with an 8-byte nonce. -/
theorem new_logical_state_layout :
    (∀ b0 b1 b2 b3 b4 b5 b6 b7 b8 b9 b10 b11 b12 b13 b14 b15
       b16 b17 b18 b19 b20 b21 b22 b23 b24 b25 b26 b27 b28 b29 b30 b31
       n0 n1 n2 n3 n4 n5 n6 n7 : Nat,
      newOpt
        [b0, b1, b2, b3, b4, b5, b6, b7, b8, b9, b10, b11, b12, b13, b14, b15,
         b16, b17, b18, b19, b20, b21, b22, b23, b24, b25, b26, b27, b28, b29, b30, b31]
        [n0, n1, n2, n3, n4, n5, n6, n7] =
      some
        [(constants 32).getD 0 0,
         u32_from_le_bytes b0 b1 b2 b3, u32_from_le_bytes b4 b5 b6 b7,
         u32_from_le_bytes b8 b9 b10 b11, u32_from_le_bytes b12 b13 b14 b15,
         (constants 32).getD 1 0,
         u32_from_le_bytes n0 n1 n2 n3, u32_from_le_bytes n4 n5 n6 n7,
         0, 0,
         (constants 32).getD 2 0,
         u32_from_le_bytes b16 b17 b18 b19, u32_from_le_bytes b20 b21 b22 b23,
         u32_from_le_bytes b24 b25 b26 b27, u32_from_le_bytes b28 b29 b30 b31,
         (constants 32).getD 3 0]) ∧
    (∀ b0 b1 b2 b3 b4 b5 b6 b7 b8 b9 b10 b11 b12 b13 b14 b15
       n0 n1 n2 n3 n4 n5 n6 n7 : Nat,
      newOpt
        [b0, b1, b2, b3, b4, b5, b6, b7, b8, b9, b10, b11, b12, b13, b14, b15]
        [n0, n1, n2, n3, n4, n5, n6, n7] =
      some
        [(constants 16).getD 0 0,
         u32_from_le_bytes b0 b1 b2 b3, u32_from_le_bytes b4 b5 b6 b7,
         u32_from_le_bytes b8 b9 b10 b11, u32_from_le_bytes b12 b13 b14 b15,
         (constants 16).getD 1 0,
         u32_from_le_bytes n0 n1 n2 n3, u32_from_le_bytes n4 n5 n6 n7,
         0, 0,
         (constants 16).getD 2 0,
         u32_from_le_bytes b0 b1 b2 b3, u32_from_le_bytes b4 b5 b6 b7,
         u32_from_le_bytes b8 b9 b10 b11, u32_from_le_bytes b12 b13 b14 b15,
         (constants 16).getD 3 0]) := by
  constructor <;> intros <;> rfl

/-- Every chunk produced by `chunks4` on a list whose length is a
multiple of 4 has exactly 4 bytes, so converting every chunk to a word
succeeds. -/
theorem chunks4_mapM_isSome :
    ∀ l : List Nat, l.length % 4 = 0 →
      (mapOpt chunk_to_word (chunks4 l)).isSome = true
  | [], _ => rfl
  | [_], h => by simp at h
  | [_, _], h => by simp at h
  | [_, _, _], h => by simp at h
  | b0 :: b1 :: b2 :: b3 :: rest, h => by
      have ih := chunks4_mapM_isSome rest (by simp at h; omega)
      obtain ⟨ws, hws⟩ := Option.isSome_iff_exists.mp ih
      simp [chunks4, mapOpt, chunk_to_word, hws]

/-- C10: for every key of length exactly 16 or 32 bytes and every 8-byte
nonce, construction is total and never panics: each slice taken from the
key and nonce has length a multiple of 4, so every 4-byte chunk-to-word
conversion succeeds (`newOpt` returns `some`, i.e. no `unwrap` is
reached on a failed conversion). -/
theorem new_total_on_valid_lengths :
    ∀ key iv : List Nat, (key.length = 16 ∨ key.length = 32) →
      iv.length = 8 → (newOpt key iv).isSome = true := by
  intro key iv hk hi
  have h1 : (mapOpt chunk_to_word (chunks4 (key.take (min key.length 16)))).isSome = true := by
    apply chunks4_mapM_isSome
    rw [List.length_take]
    omega
  have h2 : (mapOpt chunk_to_word (chunks4 iv)).isSome = true := by
    apply chunks4_mapM_isSome
    omega
  have h3 : (mapOpt chunk_to_word (chunks4 (key.drop (key.length - 16)))).isSome = true := by
    apply chunks4_mapM_isSome
    rw [List.length_drop]
    omega
  obtain ⟨w1, hw1⟩ := Option.isSome_iff_exists.mp h1
  obtain ⟨w2, hw2⟩ := Option.isSome_iff_exists.mp h2
  obtain ⟨w3, hw3⟩ := Option.isSome_iff_exists.mp h3
  simp only [newOpt, hw1, hw2, hw3, Option.some_bind]
  rfl

/-- C10 witness: construction succeeds on a concrete 16-byte key and
8-byte nonce. -/
theorem new_total_on_valid_lengths_witness :
    (newOpt (List.replicate 16 1) (List.replicate 8 2)).isSome = true :=
  new_total_on_valid_lengths (List.replicate 16 1) (List.replicate 8 2)
    (Or.inl (by decide)) (by decide)
